import Mathlib

/-
  Verification of the tiered YouTube-transcription pipeline (src/app.py).

  Shallow embedding conventions:
  * Python strings are `List Char` (`Str`); `str.strip()` is `pyStrip`,
    `" ".join` is `joinSpace`, substring tests are `List.isInfixOf`.
  * The filesystem is an explicit `FS` value (orderly lists of directory
    and file paths); every function that touches disk threads it.
  * The three external collaborators (caption API, yt-dlp strategies,
    ffprobe / ffmpeg / whisper subprocesses) are oracles collected in `Env`;
    each oracle value describes what the external call would do
    (raise, time out, write files, return output).
  * Python exceptions are `Except` values (`PyErr` keeps the exception
    class distinction that `app.py` relies on: ValueError, RuntimeError,
    subprocess TimeoutExpired, anything else).
  * `tempfile.mkdtemp` / `uuid` produce fresh opaque names; the model fixes
    the scratch directory name to the constant `yt_temp_dir`.
-/

set_option maxHeartbeats 1000000

abbrev Str := List Char

/-- Whitespace set of Python `str.strip` (ASCII portion). -/
def pyIsSpace (c : Char) : Bool :=
  decide (c = ' ' ∨ c = '\t' ∨ c = '\n' ∨ c = '\r' ∨ c = '\x0b' ∨ c = '\x0c')

/-- Python `s.strip()`. -/
def pyStrip (s : Str) : Str :=
  ((s.dropWhile pyIsSpace).reverse.dropWhile pyIsSpace).reverse

/-- Python `" ".join(parts)`. -/
def joinSpace : List Str → Str
  | [] => []
  | [x] => x
  | x :: y :: rest => x ++ ' ' :: joinSpace (y :: rest)

/-- Python `s.lower()` (ASCII portion). -/
def lowerStr (s : Str) : Str := s.map Char.toLower

/-- Character class `[0-9A-Za-z_-]` of the video-id regexes in app.py. -/
def isIdChar (c : Char) : Bool :=
  decide (('0' ≤ c ∧ c ≤ '9') ∨ ('A' ≤ c ∧ c ≤ 'Z') ∨ ('a' ≤ c ∧ c ≤ 'z') ∨ c = '_' ∨ c = '-')

/-- Matches `([0-9A-Za-z_-]{11})` at the head of `s`, returning the 11 captured chars. -/
def takeId11 (s : Str) : Option Str :=
  if (s.take 11).length = 11 ∧ (s.take 11).all isIdChar then some (s.take 11) else none

/-- `re.search` of the first pattern of `extract_video_id`:
`(?:v=|/)([0-9A-Za-z_-]{11}).*` — leftmost position where `v=` or `/` is
followed by 11 id characters. -/
def searchPat1 : Str → Option Str
  | [] => none
  | 'v' :: rest =>
    (match rest with
     | '=' :: rest2 =>
       (match takeId11 rest2 with
        | some v => some v
        | none => searchPat1 rest)
     | _ => searchPat1 rest)
  | '/' :: rest =>
    (match takeId11 rest with
     | some v => some v
     | none => searchPat1 rest)
  | _ :: rest => searchPat1 rest

/-- `re.search` of a literal string followed by `([0-9A-Za-z_-]{11})`
(patterns 2-4 of `extract_video_id`). -/
def searchLit (lit : Str) : Str → Option Str
  | [] => none
  | c :: rest =>
    if lit.isPrefixOf (c :: rest) then
      (match takeId11 ((c :: rest).drop lit.length) with
       | some v => some v
       | none => searchLit lit rest)
    else searchLit lit rest

/-- `extract_video_id` of app.py: the four patterns are tried in order,
first successful match wins, `None` if none matches. -/
def extract_video_id (url : Str) : Option Str :=
  match searchPat1 url with
  | some v => some v
  | none =>
    match searchLit ("youtu.be/".toList) url with
    | some v => some v
    | none =>
      match searchLit ("embed/".toList) url with
      | some v => some v
      | none => searchLit ("shorts/".toList) url

/-- Case-insensitive literal match of `pre` at the head of `s`
(for the `https?://` part of the URL regex, compiled with re.IGNORECASE). -/
def stripHeadCI : Str → Str → Option Str
  | [], s => some s
  | _ :: _, [] => none
  | p :: ps, c :: cs => if c.toLower = p.toLower then stripHeadCI ps cs else none

/-- Does `.*$` (Python, no DOTALL) match the whole of `t`?  True iff `t`
contains no newline except possibly a single trailing one. -/
def dotStarEndMatch : Str → Bool
  | [] => true
  | ['\n'] => true
  | c :: rest => decide (c ≠ '\n') && dotStarEndMatch rest

/-- `re.match(r"^https?://([^/]+)(/.*)?$", url, re.IGNORECASE)`:
returns the captured host and the remaining tail on success.
The greedy `[^/]+` makes the host the maximal run of non-slash characters
after the scheme; the optional `(/.*)?$` then has to consume the rest. -/
def urlHostTail (url : Str) : Option (Str × Str) :=
  match (match stripHeadCI ("https://".toList) url with
         | some r => some r
         | none => stripHeadCI ("http://".toList) url) with
  | none => none
  | some r =>
    if r.takeWhile (fun c => decide (c ≠ '/')) = [] then none
    else
      match r.dropWhile (fun c => decide (c ≠ '/')) with
      | [] => some (r.takeWhile (fun c => decide (c ≠ '/')), [])
      | '/' :: t =>
        if dotStarEndMatch t then
          some (r.takeWhile (fun c => decide (c ≠ '/')), '/' :: t)
        else none
      | _ :: _ => none

def ALLOWED_HOSTS : List Str :=
  ["youtube.com".toList, "www.youtube.com".toList, "youtu.be".toList, "m.youtube.com".toList]

def msgInformeUrl : Str := "Informe uma URL do YouTube.".toList
def msgUrlInvalida : Str := "URL inválida.".toList
def msgDominio : Str := "A URL deve ser do domínio youtube.com ou youtu.be.".toList
def msgForneca : Str := "Forneça uma URL válida de vídeo do YouTube.".toList

/-- `validate_youtube_url_or_raise` of app.py; `.error msg` models
`raise ValueError(msg)`. -/
def validate_youtube_url_or_raise (url : Str) : Except Str Unit :=
  if url = [] then .error msgInformeUrl
  else
    match urlHostTail url with
    | none => .error msgUrlInvalida
    | some (host, _) =>
      if lowerStr host ∈ ALLOWED_HOSTS then
        match extract_video_id url with
        | none => .error msgForneca
        | some _ => .ok ()
      else .error msgDominio

/-- The modelled filesystem: which directories and which files exist,
in creation order (`os.listdir` is modelled as listing in that order). -/
structure FS where
  dirs : List Str
  files : List Str
deriving DecidableEq, Repr

/-- One iteration of the loop body of `cleanup_files`:
`os.remove` for a file, `shutil.rmtree` for a directory, silently
nothing otherwise.  Empty paths are skipped (`if not path`). -/
def removeOne (fs : FS) (p : Str) : FS :=
  if p = [] then fs
  else if p ∈ fs.files then { fs with files := fs.files.filter (fun f => decide (f ≠ p)) }
  else if p ∈ fs.dirs then
    { dirs := fs.dirs.filter (fun d => decide (d ≠ p ∧ ¬ ((p ++ ['/']) <+: d))),
      files := fs.files.filter (fun f => decide (¬ ((p ++ ['/']) <+: f))) }
  else fs

/-- `cleanup_files` of app.py.  `none` entries model `path = None`
(skipped by the `isinstance` guard). -/
def cleanup_files (fs : FS) (paths : List (Option Str)) : FS :=
  paths.foldl (fun acc q => match q with | none => acc | some p => removeOne acc p) fs

/-- `os.path.exists`. -/
def pathExists (fs : FS) (p : Str) : Prop := p ∈ fs.files ∨ p ∈ fs.dirs

instance (fs : FS) (p : Str) : Decidable (pathExists fs p) := by
  unfold pathExists; infer_instance

/-- A file appearing on disk (idempotent, keeps creation order). -/
def addFile (fs : FS) (p : Str) : FS :=
  if p ∈ fs.files then fs else { fs with files := fs.files ++ [p] }

/-- A directory appearing on disk. -/
def addDir (fs : FS) (p : Str) : FS :=
  if p ∈ fs.dirs then fs else { fs with dirs := fs.dirs ++ [p] }

/-- `audio_extensions` of `find_downloaded_file`. -/
def audio_extensions : List Str :=
  [".m4a".toList, ".mp3".toList, ".opus".toList, ".webm".toList, ".ogg".toList, ".wav".toList]

/-- `find_downloaded_file` of app.py: first listed file inside `directory`
whose name ends with a recognized audio extension; `None` if the listing
fails (directory missing) or nothing matches. -/
def find_downloaded_file (fs : FS) (directory : Str) : Option Str :=
  if directory ∈ fs.dirs then
    fs.files.find? (fun f =>
      decide ((directory ++ ['/']) <+: f) &&
      audio_extensions.any (fun e => decide (e <:+ f)))
  else none

/-- What one yt-dlp strategy attempt does: the files it drops into the
scratch directory (basenames), and the error message if `extract_info`
raised. -/
structure StrategyOutcome where
  files : List Str
  raised : Option Str
deriving Repr

/-- One entry of `player_configs` in app.py (pure data). -/
structure PlayerConfig where
  name : Str
  player_client : List Str
  player_skip : List Str
deriving Repr

/-- The fixed, ordered strategy list of `download_youtube_audio_with_fallbacks`. -/
def player_configs : List PlayerConfig :=
  [⟨"android".toList, ["android".toList], ["webpage".toList]⟩,
   ⟨"ios".toList, ["ios".toList], ["webpage".toList]⟩,
   ⟨"web_embed".toList, ["web".toList], []⟩,
   ⟨"android_web".toList, ["android".toList, "web".toList], ["configs".toList]⟩]

/-- What the single `ffprobe` call of `get_audio_duration` does:
raise, exceed its 10s timeout, or complete — `parsed` is the duration
`float(stdout.strip())` would yield (`none`: empty or unparsable stdout). -/
inductive ProbeOutcome where
  | raisedExc
  | timedOut
  | completed (parsed : Option ℚ)
deriving DecidableEq, Repr

/-- What the single `ffmpeg` call of `extract_wav_with_bundled_ffmpeg`
does: exceed its 300s timeout, or complete with a return code, captured
error stream, and whether the output WAV landed on disk. -/
inductive FfmpegOutcome where
  | timedOut (wrote : Bool)
  | completed (returncode : Int) (errOut : Str) (wrote : Bool)
deriving DecidableEq, Repr

/-- The oracle for every external collaborator touched during one request. -/
structure Env where
  captions : Str → Except Str (List Str)
  strategyRun : Str → StrategyOutcome
  probe : ProbeOutcome
  ffmpeg : FfmpegOutcome
  whisper : Except Str (List Str)

/-- Python exception values the pipeline distinguishes. -/
inductive PyErr where
  | valueErr (msg : Str)
  | runtimeErr (msg : Str)
  | timeoutErr
  | otherErr (msg : Str)
deriving DecidableEq, Repr

/-- `str(exc)`. -/
def errStr : PyErr → Str
  | .valueErr m => m
  | .runtimeErr m => m
  | .timeoutErr => "Command timed out after 300 seconds".toList
  | .otherErr m => m

/-- `get_transcript_from_api` of app.py: any exception from the caption
API yields `None`; otherwise the entry texts are joined with single
spaces, stripped, and an all-whitespace result is `None`. -/
def get_transcript_from_api (env : Env) (video_id : Str) : Option Str :=
  match env.captions video_id with
  | .error _ => none
  | .ok entries =>
    if pyStrip (joinSpace entries) = [] then none
    else some (pyStrip (joinSpace entries))

/-- The scratch directory created by `tempfile.mkdtemp(prefix="yt_audio_")`. -/
def yt_temp_dir : Str := "/tmp/yt_audio_x".toList

/-- The files a strategy attempt wrote, placed inside the scratch directory. -/
def writeFiles (fs : FS) (names : List Str) : FS :=
  names.foldl (fun acc nm => addFile acc (yt_temp_dir ++ '/' :: nm)) fs

def dlFailHead : Str := "Falha em todos os métodos de download. Último erro: ".toList

/-- Result of `download_youtube_audio_with_fallbacks`: the returned path or
raised error, the filesystem afterwards, and how many strategies ran. -/
structure DlOut where
  result : Except PyErr Str
  fs : FS
  tried : Nat
deriving Repr

/-- The strategy loop of `download_youtube_audio_with_fallbacks`.
A raising strategy records `last_error` and continues; a non-raising one
returns the first recognized audio file if any, else continues without
touching `last_error`.  Exhaustion removes the scratch directory and
raises `RuntimeError` mentioning `last_error` (`"None"` if never set). -/
def downloadAttempts (env : Env) : List PlayerConfig → FS → Option Str → Nat → DlOut
  | [], fs, lastErr, tried =>
    ⟨.error (.runtimeErr (dlFailHead ++ lastErr.getD ("None".toList))),
     cleanup_files fs [some yt_temp_dir], tried⟩
  | cfg :: rest, fs, lastErr, tried =>
    match (env.strategyRun cfg.name).raised with
    | some e =>
      downloadAttempts env rest (writeFiles fs (env.strategyRun cfg.name).files) (some e) (tried + 1)
    | none =>
      match find_downloaded_file (writeFiles fs (env.strategyRun cfg.name).files) yt_temp_dir with
      | some f => ⟨.ok f, writeFiles fs (env.strategyRun cfg.name).files, tried + 1⟩
      | none =>
        downloadAttempts env rest (writeFiles fs (env.strategyRun cfg.name).files) lastErr (tried + 1)

/-- `download_youtube_audio_with_fallbacks` of app.py. -/
def download_youtube_audio_with_fallbacks (env : Env) (fs : FS) : DlOut :=
  downloadAttempts env player_configs (addDir fs yt_temp_dir) none 0

def MAX_VIDEO_DURATION : ℚ := 600

/-- `get_audio_duration` of app.py: 0.0 on any probe failure (raise,
timeout, empty or unparsable stdout), otherwise the parsed duration. -/
def get_audio_duration (env : Env) (_file_path : Str) : ℚ :=
  match env.probe with
  | .raisedExc => 0
  | .timedOut => 0
  | .completed none => 0
  | .completed (some d) => d

/-- `os.path.splitext(p)[0]`: strip the extension of the last path
component (a leading-dot run of the basename does not start an extension). -/
def splitextRoot (p : Str) : Str :=
  let base := (p.reverse.takeWhile (fun c => decide (c ≠ '/'))).reverse
  let dir := (p.reverse.dropWhile (fun c => decide (c ≠ '/'))).reverse
  let lead := base.takeWhile (fun c => decide (c = '.'))
  let rest := base.dropWhile (fun c => decide (c = '.'))
  let stem :=
    if '.' ∈ rest then ((rest.reverse.dropWhile (fun c => decide (c ≠ '.'))).drop 1).reverse
    else rest
  dir ++ lead ++ stem

/-- `wav_path = os.path.splitext(input_file_path)[0] + "_audio.wav"`. -/
def wav_output_path (input : Str) : Str := splitextRoot input ++ "_audio.wav".toList

def normFailHead : Str := "Falha ao extrair áudio: ".toList

/-- `extract_wav_with_bundled_ffmpeg` of app.py.  A timeout propagates
`subprocess.TimeoutExpired`; a completed run raises
`RuntimeError("Falha ao extrair áudio: " + stderr[:200])` iff the return
code is non-zero or the WAV is missing, and returns the WAV path otherwise. -/
def extract_wav_with_bundled_ffmpeg (env : Env) (fs : FS) (input : Str) :
    Except PyErr Str × FS :=
  match env.ffmpeg with
  | .timedOut wrote =>
    (.error .timeoutErr, if wrote then addFile fs (wav_output_path input) else fs)
  | .completed rc errOut wrote =>
    if rc ≠ 0 ∨ ¬ pathExists (if wrote then addFile fs (wav_output_path input) else fs)
                    (wav_output_path input) then
      (.error (.runtimeErr (normFailHead ++ errOut.take 200)),
       if wrote then addFile fs (wav_output_path input) else fs)
    else (.ok (wav_output_path input), if wrote then addFile fs (wav_output_path input) else fs)

def sentinelNoSpeech : Str := "⚠️ Nenhuma fala detectada no áudio.".toList

/-- `[seg.text.strip() for seg in segments if seg.text.strip()]`. -/
def segParts (segs : List Str) : List Str :=
  (segs.map pyStrip).filter (fun t => decide (t ≠ []))

/-- Lines 418-423 of app.py: join the trimmed non-empty segment texts with
single spaces in emission order; sentinel result when nothing remains. -/
def whisperJoin (segs : List Str) : Str :=
  if segParts segs = [] then sentinelNoSpeech else joinSpace (segParts segs)

/-- Result of `transcribe_with_whisper_local`: value or raised exception,
filesystem afterwards, and whether model inference was reached. -/
structure WhOut where
  result : Except PyErr Str
  fs : FS
  recognized : Bool
deriving Repr

/-- `transcribe_with_whisper_local` of app.py.  The `finally` block passes
`wav_path` to `cleanup_files`; when extraction raised, `wav_path` is still
`None` there. -/
def transcribe_with_whisper_local (env : Env) (fs : FS) (file_path : Str) : WhOut :=
  match extract_wav_with_bundled_ffmpeg env fs file_path with
  | (.error e, fs1) => ⟨.error e, cleanup_files fs1 [none], false⟩
  | (.ok wav_path, fs1) =>
    match env.whisper with
    | .error m => ⟨.error (.otherErr m), cleanup_files fs1 [some wav_path], true⟩
    | .ok segs => ⟨.ok (whisperJoin segs), cleanup_files fs1 [some wav_path], true⟩

def msgBloqueado : Str :=
  ("YouTube bloqueou a requisição. Tente: (1) Aguardar 10-15 min, (2) Usar outra URL, (3) Upload direto do arquivo.").toList
def msgIndisponivel : Str := "Vídeo indisponível, privado ou restrito por região.".toList
def msgPlayerResp : Str :=
  ("Não foi possível extrair informações do vídeo. O vídeo pode ter legendas desabilitadas. Tente fazer upload do arquivo.").toList
def msgFormato : Str := "Formato de vídeo não disponível para download.".toList

/-- `format_error_message` of app.py: keyword classification with raw
pass-through for unmatched errors. -/
def format_error_message (e : Str) : Str :=
  if ("Sign in to confirm".toList <:+: e) ∨ ("bot".toList <:+: lowerStr e) then
    msgBloqueado
  else if "Video unavailable".toList <:+: e then msgIndisponivel
  else if "player response".toList <:+: lowerStr e then msgPlayerResp
  else if "Requested format not available".toList <:+: e then msgFormato
  else e

/-- Terminal outcome of one `/transcribe` request: a rendered transcript
with the method label, or a flashed error message plus redirect. -/
inductive Outcome where
  | success (transcript : Str) (method : Str)
  | failure (msg : Str)
deriving DecidableEq, Repr

/-- One full request: outcome, final filesystem, and which stages ran. -/
structure RunResult where
  outcome : Outcome
  fs : FS
  acquisitionInvoked : Bool
  normalizationInvoked : Bool
  recognitionInvoked : Bool
deriving DecidableEq, Repr

def methodAPI : Str := "YouTube Transcript API".toList
def methodWhisper : Str := "Whisper AI".toList
def erroHead : Str := "Erro: ".toList
def msgNoExtract : Str := "Não foi possível extrair o ID do vídeo.".toList
def msgNoMethod : Str := "❌ Não foi possível obter a transcrição por nenhum método.".toList
def tooLongHead : Str := "Vídeo muito longo (".toList

/-- Python `int()` truncation toward zero on a rational. -/
def pyIntTrunc (q : ℚ) : Int := Int.tdiv q.num (Int.ofNat q.den)

/-- `f"Vídeo muito longo ({int(duration)}s). Máximo: {MAX_VIDEO_DURATION}s"`. -/
def tooLongMsg (d : ℚ) : Str :=
  tooLongHead ++ (toString (pyIntTrunc d)).toList ++ "s). Máximo: 600s".toList

/-- The `/transcribe` route of app.py (the pipeline orchestrator).
Tier 1 is the caption API; on a falsy result tier 2 downloads audio,
guards the probed duration, and runs local recognition, with
`cleanup_files([file_path])` in the `finally` block. -/
def transcribe (env : Env) (url : Str) (fs : FS) : RunResult :=
  if pyStrip url = [] then ⟨.failure msgInformeUrl, fs, false, false, false⟩
  else
    match validate_youtube_url_or_raise (pyStrip url) with
    | .error m => ⟨.failure m, fs, false, false, false⟩
    | .ok _ =>
      match extract_video_id (pyStrip url) with
      | none => ⟨.failure msgNoExtract, fs, false, false, false⟩
      | some video_id =>
        match get_transcript_from_api env video_id with
        | some t =>
          if t = [] then ⟨.failure msgNoMethod, fs, false, false, false⟩
          else ⟨.success t methodAPI, fs, false, false, false⟩
        | none =>
          match download_youtube_audio_with_fallbacks env fs with
          | ⟨.error e, dfs, _⟩ =>
            ⟨.failure (erroHead ++ format_error_message (errStr e)), dfs, true, false, false⟩
          | ⟨.ok file_path, dfs, _⟩ =>
            if get_audio_duration env file_path > MAX_VIDEO_DURATION then
              ⟨.failure (erroHead ++ format_error_message
                          (tooLongMsg (get_audio_duration env file_path))),
               cleanup_files dfs [some file_path], true, false, false⟩
            else
              match transcribe_with_whisper_local env dfs file_path with
              | ⟨.error e, tfs, recog⟩ =>
                ⟨.failure (erroHead ++ format_error_message (errStr e)),
                 cleanup_files tfs [some file_path], true, true, recog⟩
              | ⟨.ok text, tfs, recog⟩ =>
                if text = [] then
                  ⟨.failure msgNoMethod, cleanup_files tfs [some file_path], true, true, recog⟩
                else
                  ⟨.success text methodWhisper, cleanup_files tfs [some file_path], true, true, recog⟩

/-! Concrete fixtures used by witness and counterexample theorems. -/

def fs0 : FS := ⟨[], []⟩

def urlW : Str := "https://www.youtube.com/watch?v=dQw4w9WgXcQ".toList

def vidW : Str := "dQw4w9WgXcQ".toList

def fW : Str := yt_temp_dir ++ '/' :: "audio_1.m4a".toList

/-- Baseline oracle: captions unavailable, every strategy raises, probe
reads 42 s, ffmpeg succeeds, whisper hears "Hello". -/
def envBase : Env :=
  ⟨fun _ => .error "sem legendas".toList,
   fun _ => ⟨[], some "falhou".toList⟩,
   .completed (some 42), .completed 0 [] true, .ok ["Hello".toList]⟩

/-- Captions unavailable; the first strategy drops `audio_1.m4a` and returns. -/
def envC1 : Env :=
  { envBase with strategyRun := fun nm =>
      if nm = "android".toList then ⟨["audio_1.m4a".toList], none⟩ else ⟨[], none⟩ }

/-- Caption service answers with one cue "Hello world". -/
def envC2W : Env := { envBase with captions := fun _ => .ok ["Hello world".toList] }

/-- Caption service answers with one cue " hi" (leading whitespace). -/
def envC3X : Env := { envBase with captions := fun _ => .ok [" hi".toList] }

/-- Every strategy completes without raising and without writing any file. -/
def envC4C : Env := { envBase with strategyRun := fun _ => ⟨[], none⟩ }

/-- First strategy writes `a.m4a` but then raises; the rest are clean no-ops. -/
def envCX4 : Env :=
  { envBase with strategyRun := fun nm =>
      if nm = "android".toList then ⟨["a.m4a".toList], some "boom".toList⟩ else ⟨[], none⟩ }

/-- Like `envC1` but the probe reads 900 s. -/
def envC5W : Env := { envC1 with probe := .completed (some 900) }

/-- Like `envC1` but the probe raises. -/
def envC10W : Env := { envC1 with probe := .raisedExc }

/-- ffmpeg exits 1 with "boom" on its error stream and writes nothing. -/
def envC8f : Env := { envBase with ffmpeg := .completed 1 "boom".toList false }

/-- ffmpeg hits its 300 s timeout. -/
def envC8t : Env := { envBase with ffmpeg := .timedOut false }

/-- Specification-side view of the strategy loop: the scratch filesystem
after the file writes of a given strategy prefix (a strategy's files land
whether or not it raised). -/
def runFS (env : Env) (cfgs : List PlayerConfig) (fsx : FS) : FS :=
  cfgs.foldl (fun acc cfg => writeFiles acc (env.strategyRun cfg.name).files) fsx

/-- Specification-side view of `last_error` after a given strategy prefix:
the most recently raised strategy error, threading an initial value
(strategies that complete without raising leave it unchanged). -/
def runLastErr (env : Env) (cfgs : List PlayerConfig) (le : Option Str) : Option Str :=
  cfgs.foldl (fun acc cfg =>
    match (env.strategyRun cfg.name).raised with
    | some e => some e
    | none => acc) le

/-- Every strategy in the list is skipped by the loop: it either raises,
or completes without raising but no recognized audio file is present in
the scratch directory after its writes. -/
def skipsAll (env : Env) : List PlayerConfig → FS → Prop
  | [], _ => True
  | cfg :: rest, fsx =>
    ((env.strategyRun cfg.name).raised.isSome = true ∨
     ((env.strategyRun cfg.name).raised = none ∧
      find_downloaded_file (writeFiles fsx (env.strategyRun cfg.name).files)
        yt_temp_dir = none)) ∧
    skipsAll env rest (writeFiles fsx (env.strategyRun cfg.name).files)

/-- First strategy raises, the second ("ios") drops `b.m4a` and returns:
a qualifying strategy at a non-initial position. -/
def envC4I : Env :=
  { envBase with strategyRun := fun nm =>
      if nm = "ios".toList then ⟨["b.m4a".toList], none⟩
      else if nm = "android".toList then ⟨[], some "bloqueio".toList⟩
      else ⟨[], none⟩ }

/-- Mixed exhaustion: only the first strategy raises, the remaining three
complete cleanly without producing any file. -/
def envC4M : Env :=
  { envBase with strategyRun := fun nm =>
      if nm = "android".toList then ⟨[], some "rede caiu".toList⟩ else ⟨[], none⟩ }

def fI : Str := yt_temp_dir ++ '/' :: "b.m4a".toList

/-! Helper lemmas about the embedded operations. -/

theorem get_transcript_some_ne_nil (env : Env) (v t : Str)
    (h : get_transcript_from_api env v = some t) : t ≠ [] := by
  unfold get_transcript_from_api at h
  split at h
  · exact absurd h (by simp)
  · split at h
    · exact absurd h (by simp)
    · rename_i hs
      simp only [Option.some.injEq] at h
      rw [← h]; exact hs

theorem get_transcript_congr (env1 env2 : Env) (v : Str)
    (h : env1.captions = env2.captions) :
    get_transcript_from_api env1 v = get_transcript_from_api env2 v := by
  unfold get_transcript_from_api; rw [h]

theorem find_dl_shape (fs : FS) (d f : Str)
    (h : find_downloaded_file fs d = some f) :
    f ∈ fs.files ∧ (d ++ ['/']) <+: f := by
  unfold find_downloaded_file at h
  by_cases hd : d ∈ fs.dirs
  · rw [if_pos hd] at h
    refine ⟨List.mem_of_find?_eq_some h, ?_⟩
    have hp := List.find?_some h
    simp only [Bool.and_eq_true, decide_eq_true_eq] at hp
    exact hp.1
  · rw [if_neg hd] at h; simp at h

theorem dlAttempts_ok_shape (env : Env) (cfgs : List PlayerConfig) :
    ∀ (fs : FS) (le : Option Str) (tr : Nat) (d : DlOut) (f : Str),
    downloadAttempts env cfgs fs le tr = d → d.result = .ok f →
    f ∈ d.fs.files ∧ (yt_temp_dir ++ ['/']) <+: f := by
  induction cfgs with
  | nil =>
    intro fs le tr d f hd h
    rw [downloadAttempts] at hd
    rw [← hd] at h
    simp at h
  | cons cfg rest ih =>
    intro fs le tr d f hd h
    rw [downloadAttempts] at hd
    cases hr : (env.strategyRun cfg.name).raised with
    | some e => rw [hr] at hd; exact ih _ _ _ _ _ hd h
    | none =>
      rw [hr] at hd
      cases hf : find_downloaded_file (writeFiles fs (env.strategyRun cfg.name).files)
          yt_temp_dir with
      | some g =>
        rw [hf] at hd
        rw [← hd] at h
        simp only [Except.ok.injEq] at h
        rw [← hd]
        subst h
        exact find_dl_shape _ _ _ hf
      | none => rw [hf] at hd; exact ih _ _ _ _ _ hd h

theorem dl_ok_shape (env : Env) (fs : FS) (d : DlOut) (f : Str)
    (hd : download_youtube_audio_with_fallbacks env fs = d) (h : d.result = .ok f) :
    f ∈ d.fs.files ∧ (yt_temp_dir ++ ['/']) <+: f :=
  dlAttempts_ok_shape env player_configs _ _ _ _ _ hd h

theorem removeOne_not_mem_files (fs : FS) (p : Str) (hp : p ≠ []) :
    p ∉ (removeOne fs p).files := by
  unfold removeOne
  rw [if_neg hp]
  by_cases h1 : p ∈ fs.files
  · rw [if_pos h1]; simp [List.mem_filter]
  · rw [if_neg h1]
    by_cases h2 : p ∈ fs.dirs
    · rw [if_pos h2]
      intro hmem
      exact h1 (List.mem_of_mem_filter hmem)
    · rw [if_neg h2]; exact h1

theorem removeOne_dir_gone (fs : FS) (p : Str) (hp : p ≠ []) (hnf : p ∉ fs.files) :
    p ∉ (removeOne fs p).dirs := by
  unfold removeOne
  rw [if_neg hp, if_neg hnf]
  by_cases h2 : p ∈ fs.dirs
  · rw [if_pos h2]
    intro hmem
    have := List.of_mem_filter hmem
    simp only [decide_eq_true_eq] at this
    exact this.1 rfl
  · rw [if_neg h2]; exact h2

theorem cleanup_single (fs : FS) (p : Str) :
    cleanup_files fs [some p] = removeOne fs p := rfl

theorem mem_addFile_files (fs : FS) (p x : Str) :
    x ∈ (addFile fs p).files ↔ x ∈ fs.files ∨ x = p := by
  unfold addFile
  by_cases h : p ∈ fs.files
  · rw [if_pos h]
    constructor
    · exact fun hx => Or.inl hx
    · rintro (hx | rfl)
      · exact hx
      · exact h
  · rw [if_neg h]; simp

theorem addFile_dirs (fs : FS) (p : Str) : (addFile fs p).dirs = fs.dirs := by
  unfold addFile; split <;> rfl

theorem addFile_mem_self (fs : FS) (p : Str) : p ∈ (addFile fs p).files := by
  rw [mem_addFile_files]; exact Or.inr rfl

theorem addDir_files (fs : FS) (p : Str) : (addDir fs p).files = fs.files := by
  unfold addDir; split <;> rfl

theorem addDir_mem_self (fs : FS) (p : Str) : p ∈ (addDir fs p).dirs := by
  unfold addDir
  by_cases h : p ∈ fs.dirs
  · rw [if_pos h]; exact h
  · rw [if_neg h]; simp

theorem writeFiles_dirs (fs : FS) (names : List Str) :
    (writeFiles fs names).dirs = fs.dirs := by
  induction names generalizing fs with
  | nil => rfl
  | cons nm rest ih =>
    show (writeFiles (addFile fs (yt_temp_dir ++ '/' :: nm)) rest).dirs = fs.dirs
    rw [ih, addFile_dirs]

theorem mem_writeFiles_files (fs : FS) (names : List Str) (x : Str) :
    x ∈ (writeFiles fs names).files → x ∈ fs.files ∨ ∃ nm ∈ names, x = yt_temp_dir ++ '/' :: nm := by
  induction names generalizing fs with
  | nil => exact fun h => Or.inl h
  | cons nm rest ih =>
    intro h
    have h2 := ih (addFile fs (yt_temp_dir ++ '/' :: nm)) h
    rcases h2 with h2 | ⟨nm2, hmem, rfl⟩
    · rw [mem_addFile_files] at h2
      rcases h2 with h2 | rfl
      · exact Or.inl h2
      · exact Or.inr ⟨nm, by simp⟩
    · exact Or.inr ⟨nm2, by simp [hmem]⟩

theorem yt_not_own_child (nm : Str) : yt_temp_dir ++ '/' :: nm ≠ yt_temp_dir := by
  intro h
  have := congrArg List.length h
  simp [List.length_append] at this

theorem tempdir_not_in_writeFiles (fs : FS) (names : List Str)
    (h : yt_temp_dir ∉ fs.files) : yt_temp_dir ∉ (writeFiles fs names).files := by
  intro hmem
  rcases mem_writeFiles_files fs names yt_temp_dir hmem with hx | ⟨nm, _, hx⟩
  · exact h hx
  · exact yt_not_own_child nm hx.symm

theorem joinSpace_append (a b : List Str) (ha : a ≠ []) (hb : b ≠ []) :
    joinSpace (a ++ b) = joinSpace a ++ ' ' :: joinSpace b := by
  induction a with
  | nil => exact absurd rfl ha
  | cons x xs ih =>
    cases xs with
    | nil =>
      cases b with
      | nil => exact absurd rfl hb
      | cons y ys => simp [joinSpace]
    | cons x2 xs2 =>
      have h2 : (x2 :: xs2 : List Str) ≠ [] := by simp
      have step : joinSpace ((x :: x2 :: xs2) ++ b) = x ++ ' ' :: joinSpace ((x2 :: xs2) ++ b) := by
        simp [joinSpace]
      rw [step, ih h2]
      simp [joinSpace, List.append_assoc]

theorem segParts_append (a b : List Str) :
    segParts (a ++ b) = segParts a ++ segParts b := by
  simp [segParts, List.filter_append]

theorem tooLongHead_isPre (d : ℚ) : tooLongHead <+: tooLongMsg d :=
  ⟨(toString (pyIntTrunc d)).toList ++ "s). Máximo: 600s".toList,
   by simp [tooLongMsg, List.append_assoc]⟩

theorem extract_wav_completed (env : Env) (fs : FS) (input : Str) (rc : Int)
    (errOut : Str) (wrote : Bool) (hff : env.ffmpeg = .completed rc errOut wrote) :
    extract_wav_with_bundled_ffmpeg env fs input =
      if rc ≠ 0 ∨ ¬ pathExists (if wrote then addFile fs (wav_output_path input) else fs)
          (wav_output_path input)
      then (.error (.runtimeErr (normFailHead ++ errOut.take 200)),
            if wrote then addFile fs (wav_output_path input) else fs)
      else (.ok (wav_output_path input),
            if wrote then addFile fs (wav_output_path input) else fs) := by
  unfold extract_wav_with_bundled_ffmpeg
  rw [hff]

theorem extract_wav_timedOut (env : Env) (fs : FS) (input : Str) (wrote : Bool)
    (hff : env.ffmpeg = .timedOut wrote) :
    extract_wav_with_bundled_ffmpeg env fs input =
      (.error .timeoutErr, if wrote then addFile fs (wav_output_path input) else fs) := by
  unfold extract_wav_with_bundled_ffmpeg
  rw [hff]

theorem whisper_local_ok (env : Env) (fs : FS) (fp wav : Str) (fs1 : FS)
    (he : extract_wav_with_bundled_ffmpeg env fs fp = (.ok wav, fs1)) :
    transcribe_with_whisper_local env fs fp =
      match env.whisper with
      | .error m => ⟨.error (.otherErr m), cleanup_files fs1 [some wav], true⟩
      | .ok segs => ⟨.ok (whisperJoin segs), cleanup_files fs1 [some wav], true⟩ := by
  unfold transcribe_with_whisper_local
  rw [he]

/-- Claim C6: for any recognition segment sequence (0, 1 or many segments)
the result is the trimmed non-empty segment texts joined with single
spaces in emission order (order-preservation stated as: the join of a
temporal concatenation is the join of the earlier block, a space, then the
join of the later block), the sentinel "no speech detected" text is
returned when no segment yields non-empty text, and a successful pipeline
run indeed returns this join. -/
theorem claim_C6 :
    (∀ s₁ s₂ : List Str, segParts s₁ ≠ [] → segParts s₂ ≠ [] →
      whisperJoin (s₁ ++ s₂) = whisperJoin s₁ ++ ' ' :: whisperJoin s₂) ∧
    (∀ segs : List Str, segParts segs = [] → whisperJoin segs = sentinelNoSpeech) ∧
    (∀ t : Str, pyStrip t ≠ [] → whisperJoin [t] = pyStrip t) ∧
    (∀ (env : Env) (fs : FS) (fp : Str) (segs : List Str) (c : Str),
      env.whisper = .ok segs → env.ffmpeg = .completed 0 c true →
      (transcribe_with_whisper_local env fs fp).result = .ok (whisperJoin segs)) := by
  refine ⟨?_, ?_, ?_, ?_⟩
  · intro s₁ s₂ h1 h2
    unfold whisperJoin
    rw [segParts_append, if_neg h1, if_neg h2,
        if_neg (fun hh => h1 (List.append_eq_nil.mp hh).1)]
    exact joinSpace_append _ _ h1 h2
  · intro segs h
    unfold whisperJoin
    rw [if_pos h]
  · intro t h
    have hs : segParts [t] = [pyStrip t] := by simp [segParts, h]
    unfold whisperJoin
    rw [hs, if_neg (by simp [h])]
    rfl
  · intro env fs fp segs c hw hf
    have htt : (if true then addFile fs (wav_output_path fp) else fs) =
        addFile fs (wav_output_path fp) := if_pos rfl
    have hcond : ¬(((0:Int) ≠ 0) ∨
        ¬ pathExists (if true then addFile fs (wav_output_path fp) else fs)
          (wav_output_path fp)) := by
      rintro (h0 | hnp)
      · exact h0 rfl
      · rw [htt] at hnp
        exact hnp (Or.inl (addFile_mem_self fs _))
    have he := extract_wav_completed env fs fp 0 c true hf
    rw [if_neg hcond] at he
    rw [whisper_local_ok env fs fp _ _ he, hw]

/-- Claim C8: with the external transform completing, normalization raises
`RuntimeError("Falha ao extrair áudio: " + stderr[:200])` (the
`NormalizationFailed` failure, carrying the error stream truncated to a
fixed 200-character bound) exactly when the exit status is non-zero or the
output WAV is missing, and otherwise returns the produced waveform path; a
transform timeout raises the distinct `TimeoutExpired` instead. -/
theorem claim_C8 :
    (∀ (env : Env) (fs : FS) (input : Str) (rc : Int) (errOut : Str) (wrote : Bool),
      env.ffmpeg = .completed rc errOut wrote →
      (((extract_wav_with_bundled_ffmpeg env fs input).1 =
          .error (.runtimeErr (normFailHead ++ errOut.take 200))) ↔
        (rc ≠ 0 ∨ ¬ pathExists (extract_wav_with_bundled_ffmpeg env fs input).2
            (wav_output_path input))) ∧
      (normFailHead ++ errOut.take 200).length ≤ normFailHead.length + 200 ∧
      (¬(rc ≠ 0 ∨ ¬ pathExists (extract_wav_with_bundled_ffmpeg env fs input).2
            (wav_output_path input)) →
        (extract_wav_with_bundled_ffmpeg env fs input).1 = .ok (wav_output_path input))) ∧
    (∀ (env : Env) (fs : FS) (input : Str) (wrote : Bool),
      env.ffmpeg = .timedOut wrote →
      (extract_wav_with_bundled_ffmpeg env fs input).1 = .error .timeoutErr) := by
  constructor
  · intro env fs input rc errOut wrote hff
    have he := extract_wav_completed env fs input rc errOut wrote hff
    by_cases hcond : rc ≠ 0 ∨ ¬ pathExists (if wrote then addFile fs (wav_output_path input) else fs)
        (wav_output_path input)
    · rw [if_pos hcond] at he
      rw [he]
      refine ⟨iff_of_true rfl hcond, ?_, fun hn => absurd hcond hn⟩
      simp only [List.length_append, List.length_take]
      omega
    · rw [if_neg hcond] at he
      rw [he]
      refine ⟨iff_of_false (by simp) hcond, ?_, fun _ => rfl⟩
      simp only [List.length_append, List.length_take]
      omega
  · intro env fs input wrote hff
    rw [extract_wav_timedOut env fs input wrote hff]

theorem claim_C6_witness :
    (whisperJoin ([" a ".toList] ++ ["b".toList]) =
      whisperJoin [" a ".toList] ++ ' ' :: whisperJoin ["b".toList]) ∧
    (whisperJoin ["   ".toList] = sentinelNoSpeech) ∧
    (whisperJoin [" hi ".toList] = pyStrip (" hi ".toList)) ∧
    ((transcribe_with_whisper_local envBase fs0 fW).result = .ok (whisperJoin ["Hello".toList])) :=
  ⟨claim_C6.1 [" a ".toList] ["b".toList] (by decide) (by decide),
   claim_C6.2.1 ["   ".toList] (by decide),
   claim_C6.2.2.1 (" hi ".toList) (by decide),
   claim_C6.2.2.2 envBase fs0 fW ["Hello".toList] [] rfl rfl⟩

theorem claim_C8_witness :
    ((((extract_wav_with_bundled_ffmpeg envC8f fs0 fW).1 =
        .error (.runtimeErr (normFailHead ++ ("boom".toList).take 200))) ↔
      ((1:Int) ≠ 0 ∨ ¬ pathExists (extract_wav_with_bundled_ffmpeg envC8f fs0 fW).2
          (wav_output_path fW))) ∧
     (normFailHead ++ ("boom".toList).take 200).length ≤ normFailHead.length + 200 ∧
     (¬((1:Int) ≠ 0 ∨ ¬ pathExists (extract_wav_with_bundled_ffmpeg envC8f fs0 fW).2
          (wav_output_path fW)) →
       (extract_wav_with_bundled_ffmpeg envC8f fs0 fW).1 = .ok (wav_output_path fW))) ∧
    ((extract_wav_with_bundled_ffmpeg envC8t fs0 fW).1 = .error .timeoutErr) :=
  ⟨claim_C8.1 envC8f fs0 fW 1 ("boom".toList) false rfl,
   claim_C8.2 envC8t fs0 fW false rfl⟩

theorem validate_nil_not_ok : validate_youtube_url_or_raise [] ≠ .ok () := by
  simp [validate_youtube_url_or_raise]

theorem pyStrip_ne_nil_of_validate_ok (url : Str)
    (hval : validate_youtube_url_or_raise (pyStrip url) = .ok ()) : pyStrip url ≠ [] := by
  intro hh
  rw [hh] at hval
  exact validate_nil_not_ok hval

/-- Shared control-flow fact: when validation passes, an id is extracted
and tier 1 returns text, the request ends as that transcript with the
caption method and an untouched filesystem. -/
theorem transcribe_tier1 (env : Env) (url : Str) (fs : FS) (vid t : Str)
    (hval : validate_youtube_url_or_raise (pyStrip url) = .ok ())
    (hx : extract_video_id (pyStrip url) = some vid)
    (ht : get_transcript_from_api env vid = some t) :
    transcribe env url fs = ⟨.success t methodAPI, fs, false, false, false⟩ := by
  have h0 := pyStrip_ne_nil_of_validate_ok url hval
  have hne : t ≠ [] := get_transcript_some_ne_nil env vid t ht
  unfold transcribe
  rw [if_neg h0, hval]
  simp only []
  rw [hx]
  simp only []
  rw [ht]
  simp only []
  rw [if_neg hne]

/-- Claim C2: whenever tier 1 caption retrieval yields (non-empty) text
for a valid reference, the pipeline returns exactly that text with the
caption-method label and tier 2 acquisition is never invoked (the
filesystem is untouched and the acquisition flag stays false). -/
theorem claim_C2 (env : Env) (url : Str) (fs : FS) (vid t : Str)
    (hval : validate_youtube_url_or_raise (pyStrip url) = .ok ())
    (hx : extract_video_id (pyStrip url) = some vid)
    (ht : get_transcript_from_api env vid = some t) :
    transcribe env url fs = ⟨.success t methodAPI, fs, false, false, false⟩ :=
  transcribe_tier1 env url fs vid t hval hx ht

theorem claim_C2_witness :
    transcribe envC2W urlW fs0 =
      ⟨.success ("Hello world".toList) methodAPI, fs0, false, false, false⟩ :=
  claim_C2 envC2W urlW fs0 vidW ("Hello world".toList) (by rfl) (by rfl) (by rfl)

/-- Claim C9: the caption path is a deterministic function of the
reference and the caption service's response — two runs on the same URL
whose environments agree on the caption oracle (downloads, probe, ffmpeg
and whisper oracles may differ arbitrarily, as may the starting
filesystem) produce byte-identical caption-method transcripts. -/
theorem claim_C9 (env1 env2 : Env) (url : Str) (fs1 fs2 : FS) (t : Str)
    (hc : env1.captions = env2.captions)
    (h1 : (transcribe env1 url fs1).outcome = .success t methodAPI) :
    (transcribe env2 url fs2).outcome = .success t methodAPI := by
  unfold transcribe at h1
  by_cases h0 : pyStrip url = []
  · rw [if_pos h0] at h1
    exact absurd h1 (by simp)
  rw [if_neg h0] at h1
  split at h1
  · exact absurd h1 (by simp)
  · rename_i hval
    split at h1
    · exact absurd h1 (by simp)
    · rename_i vid hx
      split at h1
      · rename_i t2 ht
        split at h1
        · exact absurd h1 (by simp)
        · simp only [] at h1
          simp only [Outcome.success.injEq] at h1
          obtain ⟨hteq, -⟩ := h1
          subst hteq
          have ht2 : get_transcript_from_api env2 vid = some t2 := by
            rw [← get_transcript_congr env1 env2 vid hc]
            exact ht
          rw [transcribe_tier1 env2 url fs2 vid t2 hval hx ht2]
      · split at h1
        · exact absurd h1 (by simp)
        · split at h1
          · exact absurd h1 (by simp)
          · split at h1
            · exact absurd h1 (by simp)
            · split at h1
              · exact absurd h1 (by simp)
              · simp only [] at h1
                simp only [Outcome.success.injEq] at h1
                exact absurd h1.2 (by decide)

theorem claim_C9_witness :
    (transcribe envC2W urlW ⟨[], ["junk".toList]⟩).outcome =
      .success ("Hello world".toList) methodAPI :=
  claim_C9 envC2W envC2W urlW fs0 ⟨[], ["junk".toList]⟩ ("Hello world".toList) rfl (by rfl)

/-- Claim C7: validation raises exactly on the listed inputs — empty or
whitespace-only text, text that the HTTP(S)-URL-with-host pattern does not
match, an allow-listed-host failure, or no 11-character id found by the
ordered positional patterns (first match winning, as embedded in
`extract_video_id`) — and returns without error on every other input (the
embedding is a pure function, so absence of side effects is inherent). -/
theorem claim_C7 (url : Str) :
    (validate_youtube_url_or_raise url = .ok () ↔
      ∃ host tl, urlHostTail url = some (host, tl) ∧ lowerStr host ∈ ALLOWED_HOSTS ∧
        (extract_video_id url).isSome = true) ∧
    (url.all pyIsSpace = true → ∃ m, validate_youtube_url_or_raise url = .error m) := by
  constructor
  · by_cases h0 : url = []
    · subst h0
      have hnil : urlHostTail ([] : Str) = none := rfl
      constructor
      · intro h
        exact absurd h (by simp [validate_youtube_url_or_raise])
      · rintro ⟨host, tl, hh, -, -⟩
        rw [hnil] at hh
        exact Option.noConfusion hh
    · unfold validate_youtube_url_or_raise
      rw [if_neg h0]
      cases hu : urlHostTail url with
      | none => simp
      | some pr =>
        obtain ⟨host, tl⟩ := pr
        by_cases hh : lowerStr host ∈ ALLOWED_HOSTS
        · cases hx : extract_video_id url with
          | none => simp [hh, hx]
          | some v => simp [hh, hx]
        · simp [hh]
  · intro hws
    cases url with
    | nil => exact ⟨msgInformeUrl, rfl⟩
    | cons c cs =>
      have hc : pyIsSpace c = true := List.all_eq_true.mp hws c (List.mem_cons_self c cs)
      have hc6 : c = ' ' ∨ c = '\t' ∨ c = '\n' ∨ c = '\r' ∨ c = '\x0b' ∨ c = '\x0c' := by
        simpa [pyIsSpace] using hc
      refine ⟨msgUrlInvalida, ?_⟩
      rcases hc6 with rfl | rfl | rfl | rfl | rfl | rfl <;> rfl

theorem claim_C7_witness :
    validate_youtube_url_or_raise urlW = .ok () ∧
    (∃ m, validate_youtube_url_or_raise ("   ".toList) = .error m) :=
  ⟨(claim_C7 urlW).1.mpr ⟨"www.youtube.com".toList, "/watch?v=dQw4w9WgXcQ".toList,
      rfl, by decide, rfl⟩,
   (claim_C7 ("   ".toList)).2 (by decide)⟩

/-- Claim C3 counterexample: the claim says a successful tier-1 retrieval
returns the cues joined with single spaces, but with the single cue " hi"
the joined text is " hi" while the code returns the stripped "hi". -/
theorem claim_C3_cx :
    get_transcript_from_api envC3X vidW = some ("hi".toList) ∧
    joinSpace [" hi".toList] = " hi".toList ∧
    ("hi".toList : Str) ≠ " hi".toList :=
  ⟨rfl, rfl, by decide⟩

/-- Claim C3 (amended): tier 1 returns `None` rather than raising on any
caption-service failure and on an all-whitespace joined text; on success
it returns the cues joined with single spaces and stripped of leading and
trailing whitespace; and a `None` tier-1 result makes the orchestrator
proceed to acquisition instead of surfacing a request-level error. -/
theorem claim_C3 :
    (∀ (env : Env) (v m : Str), env.captions v = .error m →
      get_transcript_from_api env v = none) ∧
    (∀ (env : Env) (v : Str) (entries : List Str), env.captions v = .ok entries →
      pyStrip (joinSpace entries) = [] → get_transcript_from_api env v = none) ∧
    (∀ (env : Env) (v : Str) (entries : List Str), env.captions v = .ok entries →
      pyStrip (joinSpace entries) ≠ [] →
      get_transcript_from_api env v = some (pyStrip (joinSpace entries))) ∧
    (∀ (env : Env) (url : Str) (fs : FS) (vid : Str),
      validate_youtube_url_or_raise (pyStrip url) = .ok () →
      extract_video_id (pyStrip url) = some vid →
      get_transcript_from_api env vid = none →
      (transcribe env url fs).acquisitionInvoked = true) := by
  refine ⟨?_, ?_, ?_, ?_⟩
  · intro env v m h
    unfold get_transcript_from_api
    rw [h]
  · intro env v entries h hs
    unfold get_transcript_from_api
    rw [h]
    simp only []
    rw [if_pos hs]
  · intro env v entries h hs
    unfold get_transcript_from_api
    rw [h]
    simp only []
    rw [if_neg hs]
  · intro env url fs vid hval hx ht
    have h0 := pyStrip_ne_nil_of_validate_ok url hval
    unfold transcribe
    rw [if_neg h0, hval]
    simp only []
    rw [hx]
    simp only []
    rw [ht]
    simp only []
    split
    · rfl
    · split
      · rfl
      · split
        · rfl
        · split <;> rfl

theorem claim_C3_witness :
    get_transcript_from_api envBase vidW = none ∧
    get_transcript_from_api envC3X vidW = some (pyStrip (joinSpace [" hi".toList])) ∧
    (transcribe envBase urlW fs0).acquisitionInvoked = true :=
  ⟨claim_C3.1 envBase vidW ("sem legendas".toList) rfl,
   claim_C3.2.2.1 envC3X vidW [" hi".toList] rfl (by decide),
   claim_C3.2.2.2 envBase urlW fs0 vidW (by rfl) (by rfl) rfl⟩

/-- Claim C5: when an acquired file's probed duration exceeds the
600-second ceiling, the request terminates as the MediaTooLong failure
(the "Vídeo muito longo" ValueError message, passed through the error
formatter), normalization and recognition are not invoked, and the
downloaded file has been removed from the final filesystem. -/
theorem claim_C5 (env : Env) (url : Str) (fs : FS) (vid f : Str) (dfs : FS) (n : Nat)
    (hval : validate_youtube_url_or_raise (pyStrip url) = .ok ())
    (hx : extract_video_id (pyStrip url) = some vid)
    (ht : get_transcript_from_api env vid = none)
    (hdl : download_youtube_audio_with_fallbacks env fs = ⟨.ok f, dfs, n⟩)
    (hdur : get_audio_duration env f > MAX_VIDEO_DURATION) :
    (transcribe env url fs).outcome =
      .failure (erroHead ++ format_error_message (tooLongMsg (get_audio_duration env f))) ∧
    (transcribe env url fs).normalizationInvoked = false ∧
    (transcribe env url fs).recognitionInvoked = false ∧
    f ∉ (transcribe env url fs).fs.files ∧
    tooLongHead <+: tooLongMsg (get_audio_duration env f) := by
  have h0 := pyStrip_ne_nil_of_validate_ok url hval
  have hshape := dl_ok_shape env fs ⟨.ok f, dfs, n⟩ f hdl rfl
  have hfne : f ≠ [] := by
    intro hfe
    have hp := hshape.2
    rw [hfe] at hp
    have := List.prefix_nil.mp hp
    simp at this
  have htr : transcribe env url fs =
      ⟨.failure (erroHead ++ format_error_message (tooLongMsg (get_audio_duration env f))),
       cleanup_files dfs [some f], true, false, false⟩ := by
    unfold transcribe
    rw [if_neg h0, hval]
    simp only []
    rw [hx]
    simp only []
    rw [ht]
    simp only []
    rw [hdl]
    simp only []
    rw [if_pos hdur]
  rw [htr]
  refine ⟨rfl, rfl, rfl, ?_, tooLongHead_isPre _⟩
  rw [cleanup_single]
  exact removeOne_not_mem_files dfs f hfne

theorem claim_C5_witness :
    (transcribe envC5W urlW fs0).outcome =
      .failure (erroHead ++ format_error_message (tooLongMsg (get_audio_duration envC5W fW))) ∧
    (transcribe envC5W urlW fs0).normalizationInvoked = false ∧
    (transcribe envC5W urlW fs0).recognitionInvoked = false ∧
    fW ∉ (transcribe envC5W urlW fs0).fs.files ∧
    tooLongHead <+: tooLongMsg (get_audio_duration envC5W fW) :=
  claim_C5 envC5W urlW fs0 vidW fW ⟨[yt_temp_dir], [fW]⟩ 1
    (by rfl) (by rfl) (by rfl) (by rfl) (by decide)

/-- Claim C10: whenever the duration probe fails (the subprocess raises,
times out, or prints no parsable duration), `get_audio_duration` returns 0
and never raises; consequently the duration guard passes (0 is not greater
than the 600-second ceiling) and the pipeline proceeds to normalization —
and, when the transform then succeeds, to recognition — instead of
rejecting the media. -/
theorem claim_C10 (env : Env) (fp : Str)
    (hp : ∀ d, env.probe ≠ ProbeOutcome.completed (some d)) :
    get_audio_duration env fp = 0 ∧
    (∀ (url : Str) (fs : FS) (vid f : Str) (dfs : FS) (n : Nat),
      validate_youtube_url_or_raise (pyStrip url) = .ok () →
      extract_video_id (pyStrip url) = some vid →
      get_transcript_from_api env vid = none →
      download_youtube_audio_with_fallbacks env fs = ⟨.ok f, dfs, n⟩ →
      (transcribe env url fs).normalizationInvoked = true ∧
      (∀ c, env.ffmpeg = .completed 0 c true →
        (transcribe env url fs).recognitionInvoked = true)) := by
  have hall : ∀ g, get_audio_duration env g = 0 := by
    intro g
    unfold get_audio_duration
    cases hq : env.probe with
    | raisedExc => rfl
    | timedOut => rfl
    | completed p =>
      cases p with
      | none => rfl
      | some d => exact absurd hq (hp d)
  refine ⟨hall fp, ?_⟩
  intro url fs vid f dfs n hval hx ht hdl
  have h0 := pyStrip_ne_nil_of_validate_ok url hval
  have hngt : ¬ (get_audio_duration env f > MAX_VIDEO_DURATION) := by
    rw [hall f]
    norm_num [MAX_VIDEO_DURATION]
  have hbase : transcribe env url fs =
      (match transcribe_with_whisper_local env dfs f with
       | ⟨.error e, tfs, recog⟩ =>
         ⟨.failure (erroHead ++ format_error_message (errStr e)),
          cleanup_files tfs [some f], true, true, recog⟩
       | ⟨.ok text, tfs, recog⟩ =>
         if text = [] then ⟨.failure msgNoMethod, cleanup_files tfs [some f], true, true, recog⟩
         else ⟨.success text methodWhisper, cleanup_files tfs [some f], true, true, recog⟩) := by
    unfold transcribe
    rw [if_neg h0, hval]
    simp only []
    rw [hx]
    simp only []
    rw [ht]
    simp only []
    rw [hdl]
    simp only []
    rw [if_neg hngt]
  constructor
  · rw [hbase]
    split
    · rfl
    · split <;> rfl
  · intro c hff
    have htt : (if true then addFile dfs (wav_output_path f) else dfs) =
        addFile dfs (wav_output_path f) := if_pos rfl
    have hcond : ¬(((0:Int) ≠ 0) ∨
        ¬ pathExists (if true then addFile dfs (wav_output_path f) else dfs)
          (wav_output_path f)) := by
      rintro (hz | hnp)
      · exact hz rfl
      · rw [htt] at hnp
        exact hnp (Or.inl (addFile_mem_self dfs _))
    have he := extract_wav_completed env dfs f 0 c true hff
    rw [if_neg hcond] at he
    have hwl := whisper_local_ok env dfs f _ _ he
    rw [hbase, hwl]
    cases hwz : env.whisper with
    | error m => rfl
    | ok segs =>
      simp only []
      split <;> rfl

theorem claim_C10_witness :
    get_audio_duration envC10W fW = 0 ∧
    (transcribe envC10W urlW fs0).normalizationInvoked = true ∧
    (transcribe envC10W urlW fs0).recognitionInvoked = true := by
  have h := claim_C10 envC10W fW (fun d hh => ProbeOutcome.noConfusion hh)
  have h2 := h.2 urlW fs0 vidW fW ⟨[yt_temp_dir], [fW]⟩ 1 rfl rfl rfl rfl
  exact ⟨h.1, h2.1, h2.2 [] rfl⟩

theorem removeOne_dir_children (fs : FS) (p : Str) (hp : p ≠ []) (hnf : p ∉ fs.files)
    (hd : p ∈ fs.dirs) : ∀ g ∈ (removeOne fs p).files, ¬ ((p ++ ['/']) <+: g) := by
  unfold removeOne
  rw [if_neg hp, if_neg hnf, if_pos hd]
  intro g hg
  have := List.of_mem_filter hg
  simpa using this

/-- Claim C4 counterexample: the claim says the first strategy after which
a recognized audio file exists in the scratch directory returns
immediately with no further strategies tried; but when the first strategy
writes `a.m4a` and then raises, the code continues — a second strategy
runs (and only then is the file returned), so two strategies were tried. -/
theorem claim_C4_cx :
    (envCX4.strategyRun ("android".toList)).raised = some ("boom".toList) ∧
    find_downloaded_file (writeFiles (addDir fs0 yt_temp_dir)
      (envCX4.strategyRun ("android".toList)).files) yt_temp_dir =
      some (yt_temp_dir ++ '/' :: "a.m4a".toList) ∧
    (download_youtube_audio_with_fallbacks envCX4 fs0).tried = 2 ∧
    (download_youtube_audio_with_fallbacks envCX4 fs0).tried ≠ 1 :=
  ⟨rfl, rfl, rfl, by decide⟩

theorem runFS_cons (env : Env) (cfg : PlayerConfig) (rest : List PlayerConfig) (fsx : FS) :
    runFS env (cfg :: rest) fsx =
      runFS env rest (writeFiles fsx (env.strategyRun cfg.name).files) := rfl

theorem runFS_dirs (env : Env) (cfgs : List PlayerConfig) :
    ∀ fsx : FS, (runFS env cfgs fsx).dirs = fsx.dirs := by
  induction cfgs with
  | nil => intro fsx; rfl
  | cons cfg rest ih =>
    intro fsx
    rw [runFS_cons, ih, writeFiles_dirs]

theorem tempdir_not_in_runFS (env : Env) (cfgs : List PlayerConfig) :
    ∀ fsx : FS, yt_temp_dir ∉ fsx.files → yt_temp_dir ∉ (runFS env cfgs fsx).files := by
  induction cfgs with
  | nil => intro fsx h; exact h
  | cons cfg rest ih =>
    intro fsx h
    rw [runFS_cons]
    exact ih _ (tempdir_not_in_writeFiles _ _ h)

theorem dlAttempts_return (env : Env) (cfg : PlayerConfig) (rest : List PlayerConfig)
    (fsx : FS) (le : Option Str) (tr : Nat) (f : Str)
    (hn : (env.strategyRun cfg.name).raised = none)
    (hf : find_downloaded_file (writeFiles fsx (env.strategyRun cfg.name).files)
      yt_temp_dir = some f) :
    downloadAttempts env (cfg :: rest) fsx le tr =
      ⟨.ok f, writeFiles fsx (env.strategyRun cfg.name).files, tr + 1⟩ := by
  simp only [downloadAttempts]
  rw [hn]
  simp only []
  rw [hf]

theorem dlAttempts_exhausted (env : Env) (fsx : FS) (le : Option Str) (tr : Nat) :
    downloadAttempts env [] fsx le tr =
      ⟨.error (.runtimeErr (dlFailHead ++ le.getD ("None".toList))),
       cleanup_files fsx [some yt_temp_dir], tr⟩ := by
  simp only [downloadAttempts]

/-- The loop runs straight through a prefix of skipped strategies:
afterwards it continues on the remaining strategies with the cumulative
file writes, the most recently raised error, and the attempt count
advanced by the prefix length. -/
theorem dlAttempts_skipsAll (env : Env) (pre : List PlayerConfig) :
    ∀ (rest : List PlayerConfig) (fsx : FS) (le : Option Str) (tr : Nat),
    skipsAll env pre fsx →
    downloadAttempts env (pre ++ rest) fsx le tr =
      downloadAttempts env rest (runFS env pre fsx) (runLastErr env pre le)
        (tr + pre.length) := by
  induction pre with
  | nil =>
    intro rest fsx le tr _
    simp [runFS, runLastErr]
  | cons cfg pre2 ih =>
    intro rest fsx le tr hsk
    obtain ⟨hhead, htail⟩ := hsk
    have hcons : (cfg :: pre2) ++ rest = cfg :: (pre2 ++ rest) := rfl
    have h3 : tr + 1 + pre2.length = tr + (cfg :: pre2).length := by
      simp only [List.length_cons]
      omega
    rcases hhead with hr | ⟨hn, hf⟩
    · obtain ⟨e, he⟩ := Option.isSome_iff_exists.mp hr
      have step : downloadAttempts env (cfg :: (pre2 ++ rest)) fsx le tr =
          downloadAttempts env (pre2 ++ rest)
            (writeFiles fsx (env.strategyRun cfg.name).files) (some e) (tr + 1) := by
        simp only [downloadAttempts]
        rw [he]
      have h2 : runLastErr env (cfg :: pre2) le = runLastErr env pre2 (some e) := by
        unfold runLastErr
        simp only [List.foldl_cons]
        rw [he]
      rw [hcons, step, ih rest _ (some e) (tr + 1) htail, runFS_cons, h2, h3]
    · have step : downloadAttempts env (cfg :: (pre2 ++ rest)) fsx le tr =
          downloadAttempts env (pre2 ++ rest)
            (writeFiles fsx (env.strategyRun cfg.name).files) le (tr + 1) := by
        simp only [downloadAttempts]
        rw [hn]
        simp only []
        rw [hf]
      have h2 : runLastErr env (cfg :: pre2) le = runLastErr env pre2 le := by
        unfold runLastErr
        simp only [List.foldl_cons]
        rw [hn]
      rw [hcons, step, ih rest _ le (tr + 1) htail, runFS_cons, h2, h3]

/-- Claim C4 (amended): acquisition tries the fixed strategy list in
order; the first strategy that completes without raising and after which a
file with a recognized audio extension exists in the scratch directory —
at whatever position in the list it sits — causes an immediate return of
that file, with exactly the strategies before it plus itself tried and the
remaining strategy list never consulted; and if every strategy is skipped
(raises, or completes with no recognized file), the scratch directory is
released with everything inside it and acquisition fails with the
RuntimeError carrying the most recently raised strategy error
(`runLastErr`), or the placeholder "None" when no strategy raised.  The
last two conjuncts pin down that `runLastErr` means "most recently raised":
a raising strategy appended to any run overwrites it, a clean one leaves
it unchanged. -/
theorem claim_C4 :
    (∀ (env : Env) (fs : FS) (pre : List PlayerConfig) (cfg : PlayerConfig)
       (post : List PlayerConfig) (f : Str),
      player_configs = pre ++ cfg :: post →
      skipsAll env pre (addDir fs yt_temp_dir) →
      (env.strategyRun cfg.name).raised = none →
      find_downloaded_file
        (writeFiles (runFS env pre (addDir fs yt_temp_dir))
          (env.strategyRun cfg.name).files) yt_temp_dir = some f →
      download_youtube_audio_with_fallbacks env fs =
        ⟨.ok f, writeFiles (runFS env pre (addDir fs yt_temp_dir))
          (env.strategyRun cfg.name).files, pre.length + 1⟩) ∧
    (∀ (env : Env) (cfg : PlayerConfig) (rest rest2 : List PlayerConfig)
       (fsx : FS) (le : Option Str) (tr : Nat) (f : Str),
      (env.strategyRun cfg.name).raised = none →
      find_downloaded_file (writeFiles fsx (env.strategyRun cfg.name).files)
        yt_temp_dir = some f →
      downloadAttempts env (cfg :: rest) fsx le tr =
        ⟨.ok f, writeFiles fsx (env.strategyRun cfg.name).files, tr + 1⟩ ∧
      downloadAttempts env (cfg :: rest) fsx le tr =
        downloadAttempts env (cfg :: rest2) fsx le tr) ∧
    (∀ (env : Env) (fs : FS),
      yt_temp_dir ∉ fs.files →
      skipsAll env player_configs (addDir fs yt_temp_dir) →
      (download_youtube_audio_with_fallbacks env fs).result =
        .error (.runtimeErr (dlFailHead ++
          (runLastErr env player_configs none).getD ("None".toList))) ∧
      (download_youtube_audio_with_fallbacks env fs).tried = 4 ∧
      yt_temp_dir ∉ (download_youtube_audio_with_fallbacks env fs).fs.dirs ∧
      (∀ g ∈ (download_youtube_audio_with_fallbacks env fs).fs.files,
        ¬ ((yt_temp_dir ++ ['/']) <+: g))) ∧
    (∀ (env : Env) (cfgs : List PlayerConfig) (cfg : PlayerConfig)
       (le : Option Str) (e : Str),
      (env.strategyRun cfg.name).raised = some e →
      runLastErr env (cfgs ++ [cfg]) le = some e) ∧
    (∀ (env : Env) (cfgs : List PlayerConfig) (cfg : PlayerConfig) (le : Option Str),
      (env.strategyRun cfg.name).raised = none →
      runLastErr env (cfgs ++ [cfg]) le = runLastErr env cfgs le) := by
  refine ⟨?_, ?_, ?_, ?_, ?_⟩
  · intro env fs pre cfg post f hsplit hsk hn hf
    unfold download_youtube_audio_with_fallbacks
    rw [hsplit, dlAttempts_skipsAll env pre (cfg :: post) (addDir fs yt_temp_dir) none 0 hsk,
        dlAttempts_return env cfg post _ _ _ f hn hf]
    have hz : (0 : Nat) + pre.length = pre.length := Nat.zero_add _
    rw [hz]
  · intro env cfg rest rest2 fsx le tr f hn hf
    exact ⟨dlAttempts_return env cfg rest fsx le tr f hn hf,
           (dlAttempts_return env cfg rest fsx le tr f hn hf).trans
             (dlAttempts_return env cfg rest2 fsx le tr f hn hf).symm⟩
  · intro env fs hclean hsk
    have h1 := dlAttempts_skipsAll env player_configs [] (addDir fs yt_temp_dir) none 0 hsk
    rw [List.append_nil, dlAttempts_exhausted] at h1
    have hD : download_youtube_audio_with_fallbacks env fs =
        ⟨.error (.runtimeErr (dlFailHead ++
           (runLastErr env player_configs none).getD ("None".toList))),
         cleanup_files (runFS env player_configs (addDir fs yt_temp_dir)) [some yt_temp_dir],
         4⟩ := by
      unfold download_youtube_audio_with_fallbacks
      rw [h1]
      rfl
    have hfn : yt_temp_dir ∉ (runFS env player_configs (addDir fs yt_temp_dir)).files := by
      apply tempdir_not_in_runFS
      rw [addDir_files]
      exact hclean
    have hdm : yt_temp_dir ∈ (runFS env player_configs (addDir fs yt_temp_dir)).dirs := by
      rw [runFS_dirs]
      exact addDir_mem_self fs yt_temp_dir
    rw [hD]
    refine ⟨rfl, rfl, ?_, ?_⟩
    · rw [cleanup_single]
      exact removeOne_dir_gone _ _ (by decide) hfn
    · rw [cleanup_single]
      exact removeOne_dir_children _ _ (by decide) hfn hdm
  · intro env cfgs cfg le e h
    unfold runLastErr
    rw [List.foldl_append]
    simp only [List.foldl_cons, List.foldl_nil]
    rw [h]
  · intro env cfgs cfg le h
    unfold runLastErr
    rw [List.foldl_append]
    simp only [List.foldl_cons, List.foldl_nil]
    rw [h]

theorem claim_C4_witness :
    (download_youtube_audio_with_fallbacks envC4I fs0 =
      ⟨.ok fI, writeFiles
        (runFS envC4I [⟨"android".toList, ["android".toList], ["webpage".toList]⟩]
          (addDir fs0 yt_temp_dir))
        (envC4I.strategyRun ("ios".toList)).files, 2⟩) ∧
    (downloadAttempts envC4I
        [⟨"ios".toList, ["ios".toList], ["webpage".toList]⟩,
         ⟨"web_embed".toList, ["web".toList], []⟩] (addDir fs0 yt_temp_dir) none 0 =
      downloadAttempts envC4I
        [⟨"ios".toList, ["ios".toList], ["webpage".toList]⟩] (addDir fs0 yt_temp_dir) none 0) ∧
    ((download_youtube_audio_with_fallbacks envC4M fs0).result =
      .error (.runtimeErr (dlFailHead ++
        (runLastErr envC4M player_configs none).getD ("None".toList))) ∧
     (download_youtube_audio_with_fallbacks envC4M fs0).tried = 4 ∧
     yt_temp_dir ∉ (download_youtube_audio_with_fallbacks envC4M fs0).fs.dirs) ∧
    ((download_youtube_audio_with_fallbacks envC4C fs0).result =
      .error (.runtimeErr (dlFailHead ++
        (runLastErr envC4C player_configs none).getD ("None".toList))) ∧
     (download_youtube_audio_with_fallbacks envC4C fs0).tried = 4 ∧
     yt_temp_dir ∉ (download_youtube_audio_with_fallbacks envC4C fs0).fs.dirs) ∧
    runLastErr envC4M ([] ++ [⟨"android".toList, ["android".toList], ["webpage".toList]⟩])
      none = some ("rede caiu".toList) ∧
    runLastErr envC4M
        ([⟨"android".toList, ["android".toList], ["webpage".toList]⟩] ++
         [⟨"ios".toList, ["ios".toList], ["webpage".toList]⟩]) none =
      runLastErr envC4M [⟨"android".toList, ["android".toList], ["webpage".toList]⟩] none := by
  have hi := claim_C4.1 envC4I fs0
    [⟨"android".toList, ["android".toList], ["webpage".toList]⟩]
    ⟨"ios".toList, ["ios".toList], ["webpage".toList]⟩
    [⟨"web_embed".toList, ["web".toList], []⟩,
     ⟨"android_web".toList, ["android".toList, "web".toList], ["configs".toList]⟩]
    fI rfl ⟨Or.inl rfl, trivial⟩ rfl rfl
  have hii := claim_C4.2.1 envC4I
    ⟨"ios".toList, ["ios".toList], ["webpage".toList]⟩
    [⟨"web_embed".toList, ["web".toList], []⟩] []
    (addDir fs0 yt_temp_dir) none 0 fI rfl rfl
  have hm := claim_C4.2.2.1 envC4M fs0 (by decide)
    ⟨Or.inl rfl, Or.inr ⟨rfl, rfl⟩, Or.inr ⟨rfl, rfl⟩, Or.inr ⟨rfl, rfl⟩, trivial⟩
  have hc := claim_C4.2.2.1 envC4C fs0 (by decide)
    ⟨Or.inr ⟨rfl, rfl⟩, Or.inr ⟨rfl, rfl⟩, Or.inr ⟨rfl, rfl⟩, Or.inr ⟨rfl, rfl⟩, trivial⟩
  have hr := claim_C4.2.2.2.1 envC4M []
    ⟨"android".toList, ["android".toList], ["webpage".toList]⟩ none ("rede caiu".toList) rfl
  have hcl := claim_C4.2.2.2.2 envC4M
    [⟨"android".toList, ["android".toList], ["webpage".toList]⟩]
    ⟨"ios".toList, ["ios".toList], ["webpage".toList]⟩ none rfl
  exact ⟨hi, hii.2, ⟨hm.1, hm.2.1, hm.2.2.1⟩, ⟨hc.1, hc.2.1, hc.2.2.1⟩, hr, hcl⟩

/-- Claim C1 is violated by the code: after a request that terminates
successfully through tier 2 (captions unavailable, the first download
strategy drops `audio_1.m4a` and returns, duration 42 s, recognition
succeeds), the downloaded audio file and the intermediate WAV have been
removed but the acquisition scratch directory created by `mkdtemp` is
still on disk — only `file_path` is ever passed to `cleanup_files` on
this path, never `temp_dir`. -/
theorem claim_C1_bug :
    (transcribe envC1 urlW fs0).outcome = .success ("Hello".toList) methodWhisper ∧
    (transcribe envC1 urlW fs0).fs.files = [] ∧
    yt_temp_dir ∈ (transcribe envC1 urlW fs0).fs.dirs ∧
    yt_temp_dir ∉ fs0.dirs := by
  refine ⟨rfl, rfl, by decide, by decide⟩
